import Mathlib

/-!
Verification of the go-rustfs storage client core against its specification.

The development shallowly embeds two components of the repository:

* the resilient-operation executor of package utils
  (RetryWithBackoffWithContext, calculateDelay, randomFloat64), and
* the auditable storage decorator of packages client / config / audit
  (UploadFileWithAudit, GetFileInfo, HealthCheck, validateUploadRequest,
  IsAllowedType, matchContentType, IsValidFilename, extractUserID and the
  RustFSAuditLogger event constructors).

Modelling conventions: Go machine integers (int, int64, time.Duration in
nanoseconds) are Int; float64 arithmetic is Rat; Go errors are an abstract
type parameter, or String where the error text matters; the ambient
context.Context is a family of oracles recording what each cancellation
check observes; wall-clock durations that only feed telemetry are explicit
parameters.  Fields holding real time that no claim touches (RetryResult
Duration, event timestamps) are omitted.
-/

set_option maxHeartbeats 1000000

namespace RustFS

/-! ## Retry executor (package utils)

RetryConfig mirrors types.RetryConfig (MaxAttempts int, Delay time.Duration,
Backoff float64).  RetryResult mirrors utils.RetryResult minus the wall-clock
Duration field.
-/

structure RetryConfig where
  maxAttempts : ℤ
  delay : ℤ
  backoff : ℚ

structure RetryResult (Err : Type) where
  success : Bool
  attempts : ℤ
  lastError : Option Err
  totalDelay : ℤ

/-- Model of utils.randomFloat64, a function of the observed nanosecond
clock value: float64(time.Now().UnixNano()%1000)/1000.  The Go % operator
is the truncated-division remainder, Int.tmod. -/
def randomFloat64 (nowNanos : ℤ) : ℚ :=
  ((Int.tmod nowNanos 1000 : ℤ) : ℚ) / 1000

/-- The Go conversion time.Duration(f) of a float64 truncates toward zero. -/
def durationOfFloat (q : ℚ) : ℤ :=
  if q < 0 then ⌈q⌉ else ⌊q⌋

/-- Model of utils.calculateDelay: exponential backoff
baseDelay * backoff^attempt, plus jitter of 0.25 of that value scaled by
(2*randomFloat64() - 1), clamped from below at baseDelay, then converted
to time.Duration.  The random draw is the explicit argument r. -/
def calculateDelay (attempt : Nat) (baseDelay : ℤ) (backoff : ℚ) (r : ℚ) : ℤ :=
  let delay0 : ℚ := (baseDelay : ℚ) * backoff ^ attempt
  let jitter : ℚ := delay0 * 0.25 * (2 * r - 1)
  let delay1 : ℚ := delay0 + jitter
  let delay2 : ℚ := if delay1 < (baseDelay : ℚ) then (baseDelay : ℚ) else delay1
  durationOfFloat delay2

/-- The loop of utils.RetryWithBackoffWithContext.

Oracles describing the environment of one call:

* ctxErr i    : the value of ctx.Err() observed by the check at the top of
                loop iteration i (none when the context is live);
* waitCancel i: whether ctx.Done() wins the select against time.After during
                the wait that follows a failed attempt i, and if so the
                ctx.Err() value then observed;
* fn i        : the outcome of the i-th invocation of the operation
                (none = success, some e = failure with error e);
* rand i      : the randomFloat64() draw used by calculateDelay at
                iteration i.

Besides the RetryResult the model returns the number of invocations of fn
actually performed (instrumentation used to state the claims about how
often the operation runs; the accumulator calls starts at 0). -/
def retryAux {Err : Type} (ctxErr waitCancel fn : Nat → Option Err) (rand : Nat → ℚ)
    (cfg : RetryConfig) (attempt : Nat) (lastError : Option Err) (totalDelay : ℤ)
    (calls : Nat) : RetryResult Err × Nat :=
  if h : (attempt : ℤ) < cfg.maxAttempts then
    match ctxErr attempt with
    | some e => (⟨false, (attempt : ℤ), some e, totalDelay⟩, calls)
    | none =>
      match fn attempt with
      | none => (⟨true, (attempt : ℤ) + 1, none, totalDelay⟩, calls + 1)
      | some e =>
        if (attempt : ℤ) < cfg.maxAttempts - 1 then
          let d := calculateDelay attempt cfg.delay cfg.backoff (rand attempt)
          match waitCancel attempt with
          | some ce => (⟨false, (attempt : ℤ) + 1, some ce, totalDelay + d⟩, calls + 1)
          | none =>
            retryAux ctxErr waitCancel fn rand cfg (attempt + 1) (some e)
              (totalDelay + d) (calls + 1)
        else
          retryAux ctxErr waitCancel fn rand cfg (attempt + 1) (some e) totalDelay (calls + 1)
  else
    (⟨false, cfg.maxAttempts, lastError, totalDelay⟩, calls)
termination_by (cfg.maxAttempts - (attempt : ℤ)).toNat
decreasing_by all_goals omega

/-- utils.RetryWithBackoffWithContext: run the loop from attempt 0 with no
recorded error and no accumulated delay, and return the RetryResult.
(The nil-config default of the source is not modelled; a config is always
supplied.) -/
def RetryWithBackoffWithContext {Err : Type} (ctxErr waitCancel fn : Nat → Option Err)
    (rand : Nat → ℚ) (cfg : RetryConfig) : RetryResult Err :=
  (retryAux ctxErr waitCancel fn rand cfg 0 none 0 0).1

/-- Number of times the operation is invoked during one executor call. -/
def retryInvocations {Err : Type} (ctxErr waitCancel fn : Nat → Option Err)
    (rand : Nat → ℚ) (cfg : RetryConfig) : Nat :=
  (retryAux ctxErr waitCancel fn rand cfg 0 none 0 0).2

/-! ### Delay bounds (claim C3) -/

/-- The random source of the jitter lies in [0, 1) whenever the observed
clock value is nonnegative (UnixNano is nonnegative after 1970). -/
theorem randomFloat64_mem_Ico (nowNanos : ℤ) (h : 0 ≤ nowNanos) :
    0 ≤ randomFloat64 nowNanos ∧ randomFloat64 nowNanos < 1 := by
  unfold randomFloat64
  have h1 : 0 ≤ Int.tmod nowNanos 1000 := Int.tmod_nonneg 1000 h
  have h2 : Int.tmod nowNanos 1000 < 1000 := by
    have := Int.tmod_lt_of_pos nowNanos (show (0 : ℤ) < 1000 by norm_num)
    omega
  constructor
  · positivity
  · rw [div_lt_one (by norm_num)]
    exact_mod_cast h2

/-- C3: for every attempt index, positive base delay, backoff multiplier at
least 1 and jitter draw in [0, 1), the computed delay lies in the interval
[baseDelay, baseDelay * backoff ^ attempt * 1.25]. -/
theorem calculateDelay_bounds (i : Nat) (baseDelay : ℤ) (backoff r : ℚ)
    (hb : 0 < baseDelay) (hm : 1 ≤ backoff) (hr0 : 0 ≤ r) (hr1 : r < 1) :
    baseDelay ≤ calculateDelay i baseDelay backoff r ∧
    (calculateDelay i baseDelay backoff r : ℚ) ≤ (baseDelay : ℚ) * backoff ^ i * (5/4) := by
  have hbQ : (0 : ℚ) < (baseDelay : ℚ) := by exact_mod_cast hb
  have hpow : (1 : ℚ) ≤ backoff ^ i := one_le_pow₀ hm
  simp only [calculateDelay, durationOfFloat]
  set D : ℚ := (baseDelay : ℚ) * backoff ^ i with hD
  have hDb : (baseDelay : ℚ) ≤ D := by
    rw [hD]; nlinarith
  have hD0 : (0 : ℚ) < D := lt_of_lt_of_le hbQ hDb
  set d1 : ℚ := D + D * 0.25 * (2 * r - 1) with hd1
  have hub : d1 ≤ D * (5/4) := by rw [hd1]; nlinarith
  by_cases hc : d1 < (baseDelay : ℚ)
  · rw [if_pos hc, if_neg (by push_neg; positivity)]
    refine ⟨?_, ?_⟩
    · rw [Int.floor_intCast]
    · rw [Int.floor_intCast]; nlinarith
  · rw [if_neg hc]
    push_neg at hc
    rw [if_neg (by push_neg; linarith)]
    refine ⟨Int.le_floor.mpr hc, ?_⟩
    calc ((⌊d1⌋ : ℤ) : ℚ) ≤ d1 := Int.floor_le d1
      _ ≤ D * (5/4) := hub
      _ = (baseDelay : ℚ) * backoff ^ i * (5/4) := by rw [hD]

/-- Witness for calculateDelay_bounds at attempt 3, 100ns base delay,
backoff 2, jitter drawn from clock value 1234567. -/
theorem calculateDelay_bounds_witness :
    (0 : ℤ) < 100 ∧ (1 : ℚ) ≤ 2 ∧
    (0 ≤ randomFloat64 1234567 ∧ randomFloat64 1234567 < 1) ∧
    (100 ≤ calculateDelay 3 100 2 (randomFloat64 1234567) ∧
      (calculateDelay 3 100 2 (randomFloat64 1234567) : ℚ) ≤ ((100 : ℤ) : ℚ) * 2 ^ 3 * (5/4)) := by
  have hr := randomFloat64_mem_Ico 1234567 (by norm_num)
  exact ⟨by norm_num, by norm_num, hr,
    calculateDelay_bounds 3 100 2 (randomFloat64 1234567) (by norm_num) (by norm_num) hr.1 hr.2⟩

/-! ### Behaviour of the retry loop

Helper lemmas about retryAux, each proved by induction along the loop.
-/

/-- If every invocation fails and the context never cancels, the loop runs to
exhaustion: failure, attemptsUsed = maxAttempts, lastError = the error of the
final iteration. -/
theorem retryAux_allFail {Err : Type} (ctxErr waitCancel fn : Nat → Option Err)
    (rand : Nat → ℚ) (cfg : RetryConfig) (errOf : Nat → Err)
    (hctx : ∀ i, ctxErr i = none) (hwait : ∀ i, waitCancel i = none)
    (hfn : ∀ i, fn i = some (errOf i))
    (attempt : Nat) (lastError : Option Err) (totalDelay : ℤ) (calls : Nat)
    (h : (attempt : ℤ) < cfg.maxAttempts) :
    (retryAux ctxErr waitCancel fn rand cfg attempt lastError totalDelay calls).1.success
      = false ∧
    (retryAux ctxErr waitCancel fn rand cfg attempt lastError totalDelay calls).1.attempts
      = cfg.maxAttempts ∧
    (retryAux ctxErr waitCancel fn rand cfg attempt lastError totalDelay calls).1.lastError
      = some (errOf (cfg.maxAttempts - 1).toNat) := by
  rw [retryAux, dif_pos h, hctx attempt, hfn attempt]
  dsimp only
  by_cases h2 : (attempt : ℤ) < cfg.maxAttempts - 1
  · rw [if_pos h2, hwait attempt]
    exact retryAux_allFail ctxErr waitCancel fn rand cfg errOf hctx hwait hfn
      (attempt + 1) (some (errOf attempt))
      (totalDelay + calculateDelay attempt cfg.delay cfg.backoff (rand attempt)) (calls + 1)
      (by omega)
  · rw [if_neg h2, retryAux, dif_neg (by omega)]
    refine ⟨rfl, rfl, ?_⟩
    have hh : (cfg.maxAttempts - 1).toNat = attempt := by omega
    rw [hh]
termination_by (cfg.maxAttempts - (attempt : ℤ)).toNat
decreasing_by omega

/-- If the context never cancels, the first k-1 invocations fail and the k-th
succeeds (k within budget), the loop reports success with attemptsUsed = k
after exactly k - attempt further invocations. -/
theorem retryAux_firstSuccess {Err : Type} (ctxErr waitCancel fn : Nat → Option Err)
    (rand : Nat → ℚ) (cfg : RetryConfig) (k : Nat)
    (hctx : ∀ i, ctxErr i = none) (hwait : ∀ i, waitCancel i = none)
    (hfail : ∀ i, i < k - 1 → (fn i).isSome = true) (hsucc : fn (k - 1) = none)
    (attempt : Nat) (lastError : Option Err) (totalDelay : ℤ) (calls : Nat)
    (ha : attempt < k) (hk : (k : ℤ) ≤ cfg.maxAttempts) :
    (retryAux ctxErr waitCancel fn rand cfg attempt lastError totalDelay calls).1.success
      = true ∧
    (retryAux ctxErr waitCancel fn rand cfg attempt lastError totalDelay calls).1.attempts
      = (k : ℤ) ∧
    (retryAux ctxErr waitCancel fn rand cfg attempt lastError totalDelay calls).2
      = calls + (k - attempt) := by
  have h : (attempt : ℤ) < cfg.maxAttempts := by omega
  rw [retryAux, dif_pos h, hctx attempt]
  dsimp only
  by_cases hlast : attempt = k - 1
  · subst hlast
    rw [hsucc]
    dsimp only
    refine ⟨rfl, ?_, ?_⟩
    · show ((k - 1 : Nat) : ℤ) + 1 = (k : ℤ)
      omega
    · show calls + 1 = calls + (k - (k - 1))
      omega
  · have hlt : attempt < k - 1 := by omega
    obtain ⟨e, he⟩ := Option.isSome_iff_exists.mp (hfail attempt hlt)
    rw [he]
    dsimp only
    have h2 : (attempt : ℤ) < cfg.maxAttempts - 1 := by omega
    rw [if_pos h2, hwait attempt]
    have ih := retryAux_firstSuccess ctxErr waitCancel fn rand cfg k hctx hwait hfail hsucc
      (attempt + 1) (some e)
      (totalDelay + calculateDelay attempt cfg.delay cfg.backoff (rand attempt)) (calls + 1)
      (by omega) hk
    refine ⟨ih.1, ih.2.1, ?_⟩
    rw [ih.2.2]
    omega
termination_by (cfg.maxAttempts - (attempt : ℤ)).toNat
decreasing_by omega

/-- If the context is live through the first a iterations (whose invocations
all fail and whose waits are not interrupted) and is observed cancelled at the
top of iteration a, the loop returns immediately there: failure, the
cancellation reason as lastError, attemptsUsed = a, and only a - attempt
further invocations. -/
theorem retryAux_preCancelled {Err : Type} (ctxErr waitCancel fn : Nat → Option Err)
    (rand : Nat → ℚ) (cfg : RetryConfig) (a : Nat) (e : Err)
    (hctx : ∀ i, i < a → ctxErr i = none) (hca : ctxErr a = some e)
    (hfn : ∀ i, i < a → (fn i).isSome = true) (hwait : ∀ i, i < a → waitCancel i = none)
    (attempt : Nat) (lastError : Option Err) (totalDelay : ℤ) (calls : Nat)
    (hax : attempt ≤ a) (ha : (a : ℤ) < cfg.maxAttempts) :
    (retryAux ctxErr waitCancel fn rand cfg attempt lastError totalDelay calls).1.success
      = false ∧
    (retryAux ctxErr waitCancel fn rand cfg attempt lastError totalDelay calls).1.attempts
      = (a : ℤ) ∧
    (retryAux ctxErr waitCancel fn rand cfg attempt lastError totalDelay calls).1.lastError
      = some e ∧
    (retryAux ctxErr waitCancel fn rand cfg attempt lastError totalDelay calls).2
      = calls + (a - attempt) := by
  have h : (attempt : ℤ) < cfg.maxAttempts := by omega
  rw [retryAux, dif_pos h]
  by_cases hEq : attempt = a
  · subst hEq
    rw [hca]
    dsimp only
    exact ⟨rfl, rfl, rfl, by omega⟩
  · have hlt : attempt < a := by omega
    rw [hctx attempt hlt]
    dsimp only
    obtain ⟨e2, he2⟩ := Option.isSome_iff_exists.mp (hfn attempt hlt)
    rw [he2]
    dsimp only
    have h2 : (attempt : ℤ) < cfg.maxAttempts - 1 := by omega
    rw [if_pos h2, hwait attempt hlt]
    have ih := retryAux_preCancelled ctxErr waitCancel fn rand cfg a e hctx hca hfn hwait
      (attempt + 1) (some e2)
      (totalDelay + calculateDelay attempt cfg.delay cfg.backoff (rand attempt)) (calls + 1)
      (by omega) ha
    refine ⟨ih.1, ih.2.1, ih.2.2.1, ?_⟩
    rw [ih.2.2.2]
    omega
termination_by (cfg.maxAttempts - (attempt : ℤ)).toNat
decreasing_by omega

/-- If the context stays live through iteration a, all invocations up to and
including a fail, earlier waits are not interrupted, and the cancellation
signal wins the select during the wait after attempt a (which exists because
a is not the final attempt), the loop returns failure with the cancellation
reason, attemptsUsed = a + 1, after a + 1 - attempt further invocations. -/
theorem retryAux_waitCancelled {Err : Type} (ctxErr waitCancel fn : Nat → Option Err)
    (rand : Nat → ℚ) (cfg : RetryConfig) (a : Nat) (ce : Err)
    (hctx : ∀ i, i ≤ a → ctxErr i = none) (hfn : ∀ i, i ≤ a → (fn i).isSome = true)
    (hwait : ∀ i, i < a → waitCancel i = none) (hwa : waitCancel a = some ce)
    (attempt : Nat) (lastError : Option Err) (totalDelay : ℤ) (calls : Nat)
    (hax : attempt ≤ a) (ha : (a : ℤ) < cfg.maxAttempts - 1) :
    (retryAux ctxErr waitCancel fn rand cfg attempt lastError totalDelay calls).1.success
      = false ∧
    (retryAux ctxErr waitCancel fn rand cfg attempt lastError totalDelay calls).1.attempts
      = (a : ℤ) + 1 ∧
    (retryAux ctxErr waitCancel fn rand cfg attempt lastError totalDelay calls).1.lastError
      = some ce ∧
    (retryAux ctxErr waitCancel fn rand cfg attempt lastError totalDelay calls).2
      = calls + (a + 1 - attempt) := by
  have h : (attempt : ℤ) < cfg.maxAttempts := by omega
  rw [retryAux, dif_pos h, hctx attempt hax]
  dsimp only
  obtain ⟨e2, he2⟩ := Option.isSome_iff_exists.mp (hfn attempt hax)
  rw [he2]
  dsimp only
  by_cases hEq : attempt = a
  · subst hEq
    rw [if_pos ha, hwa]
    dsimp only
    exact ⟨rfl, rfl, rfl, by omega⟩
  · have hlt : attempt < a := by omega
    have h2 : (attempt : ℤ) < cfg.maxAttempts - 1 := by omega
    rw [if_pos h2, hwait attempt hlt]
    have ih := retryAux_waitCancelled ctxErr waitCancel fn rand cfg a ce hctx hfn hwait hwa
      (attempt + 1) (some e2)
      (totalDelay + calculateDelay attempt cfg.delay cfg.backoff (rand attempt)) (calls + 1)
      (by omega) ha
    refine ⟨ih.1, ih.2.1, ih.2.2.1, ?_⟩
    rw [ih.2.2.2]
    omega
termination_by (cfg.maxAttempts - (attempt : ℤ)).toNat
decreasing_by omega

/-- Structural invariant of the loop, for any operation and any context:
attemptsUsed stays between the starting attempt index and maxAttempts, the
recorded error is present exactly on failure, and attemptsUsed = 0 forces a
cancellation observed before the first attempt. -/
theorem retryAux_invariant {Err : Type} (ctxErr waitCancel fn : Nat → Option Err)
    (rand : Nat → ℚ) (cfg : RetryConfig) (h1 : 1 ≤ cfg.maxAttempts)
    (attempt : Nat) (lastError : Option Err) (totalDelay : ℤ) (calls : Nat)
    (hle : attempt = 0 ∨ lastError.isSome = true) (ha : (attempt : ℤ) ≤ cfg.maxAttempts) :
    (attempt : ℤ)
      ≤ (retryAux ctxErr waitCancel fn rand cfg attempt lastError totalDelay calls).1.attempts ∧
    (retryAux ctxErr waitCancel fn rand cfg attempt lastError totalDelay calls).1.attempts
      ≤ cfg.maxAttempts ∧
    ((retryAux ctxErr waitCancel fn rand cfg attempt lastError totalDelay calls).1.lastError.isSome
        = true ↔
      (retryAux ctxErr waitCancel fn rand cfg attempt lastError totalDelay calls).1.success
        = false) ∧
    ((retryAux ctxErr waitCancel fn rand cfg attempt lastError totalDelay calls).1.attempts = 0 →
      (ctxErr 0).isSome = true) := by
  by_cases h : (attempt : ℤ) < cfg.maxAttempts
  · rw [retryAux, dif_pos h]
    cases hc : ctxErr attempt with
    | some e =>
      dsimp only
      refine ⟨le_refl _, by omega, by simp, ?_⟩
      intro h0
      have h00 : attempt = 0 := by omega
      rw [h00] at hc
      rw [hc]
      rfl
    | none =>
      dsimp only
      cases hf : fn attempt with
      | none =>
        dsimp only
        refine ⟨by omega, by omega, by simp, ?_⟩
        intro hh
        exfalso
        omega
      | some e =>
        dsimp only
        by_cases h2 : (attempt : ℤ) < cfg.maxAttempts - 1
        · rw [if_pos h2]
          cases hw : waitCancel attempt with
          | some ce =>
            dsimp only
            refine ⟨by omega, by omega, by simp, ?_⟩
            intro hh
            exfalso
            omega
          | none =>
            dsimp only
            have ih := retryAux_invariant ctxErr waitCancel fn rand cfg h1
              (attempt + 1) (some e)
              (totalDelay + calculateDelay attempt cfg.delay cfg.backoff (rand attempt))
              (calls + 1) (Or.inr rfl) (by omega)
            refine ⟨?_, ih.2.1, ih.2.2.1, ih.2.2.2⟩
            have hstep := ih.1
            push_cast at hstep ⊢
            omega
        · rw [if_neg h2]
          have ih := retryAux_invariant ctxErr waitCancel fn rand cfg h1
            (attempt + 1) (some e) totalDelay (calls + 1) (Or.inr rfl) (by omega)
          refine ⟨?_, ih.2.1, ih.2.2.1, ih.2.2.2⟩
          have hstep := ih.1
          push_cast at hstep ⊢
          omega
  · rw [retryAux, dif_neg h]
    dsimp only
    have hEq : (attempt : ℤ) = cfg.maxAttempts := by omega
    rcases hle with h0 | hs
    · exfalso
      rw [h0] at hEq
      omega
    · refine ⟨by omega, le_refl _, by simp [hs], ?_⟩
      intro hh
      exfalso
      omega
termination_by (cfg.maxAttempts - (attempt : ℤ)).toNat
decreasing_by all_goals omega

/-! ### Claims C1, C2, C4, C5 -/

/-- C1: for a policy with maxAttempts = n ≥ 1, a never-cancelled context and
an operation that fails on every invocation, the executor returns
succeeded = false, attemptsUsed = n, and lastError equal to the error
recorded on the last attempt. -/
theorem retry_always_failing_exhausts_budget {Err : Type} (errOf : Nat → Err)
    (rand : Nat → ℚ) (cfg : RetryConfig) (hn : 1 ≤ cfg.maxAttempts) :
    (RetryWithBackoffWithContext (fun _ => none) (fun _ => none)
        (fun i => some (errOf i)) rand cfg).success = false ∧
    (RetryWithBackoffWithContext (fun _ => none) (fun _ => none)
        (fun i => some (errOf i)) rand cfg).attempts = cfg.maxAttempts ∧
    (RetryWithBackoffWithContext (fun _ => none) (fun _ => none)
        (fun i => some (errOf i)) rand cfg).lastError
      = some (errOf (cfg.maxAttempts - 1).toNat) :=
  retryAux_allFail (fun _ => none) (fun _ => none) (fun i => some (errOf i)) rand cfg errOf
    (fun _ => rfl) (fun _ => rfl) (fun _ => rfl) 0 none 0 0 (by omega)

/-- Witness for C1 with maxAttempts = 3 and error i on invocation i. -/
theorem retry_always_failing_exhausts_budget_witness :
    1 ≤ (⟨3, 100, 2⟩ : RetryConfig).maxAttempts ∧
    ((RetryWithBackoffWithContext (fun _ => none) (fun _ => none)
        (fun i => some ((fun j => j) i)) (fun _ => 0)
        (⟨3, 100, 2⟩ : RetryConfig)).success = false ∧
      (RetryWithBackoffWithContext (fun _ => none) (fun _ => none)
        (fun i => some ((fun j => j) i)) (fun _ => 0)
        (⟨3, 100, 2⟩ : RetryConfig)).attempts = (⟨3, 100, 2⟩ : RetryConfig).maxAttempts ∧
      (RetryWithBackoffWithContext (fun _ => none) (fun _ => none)
        (fun i => some ((fun j => j) i)) (fun _ => 0)
        (⟨3, 100, 2⟩ : RetryConfig)).lastError
        = some ((fun j => j) ((⟨3, 100, 2⟩ : RetryConfig).maxAttempts - 1).toNat)) :=
  ⟨by norm_num,
    retry_always_failing_exhausts_budget (fun j => j) (fun _ => 0) ⟨3, 100, 2⟩ (by norm_num)⟩

/-- C2: for a policy with maxAttempts = n ≥ 1, a never-cancelled context and
an operation failing on its first k-1 invocations and succeeding on the k-th
(k ≤ n), the executor returns succeeded = true, attemptsUsed = k, and the
operation is invoked exactly k times. -/
theorem retry_stops_at_first_success {Err : Type} (fn : Nat → Option Err) (rand : Nat → ℚ)
    (cfg : RetryConfig) (k : Nat) (hk1 : 1 ≤ k) (hkn : (k : ℤ) ≤ cfg.maxAttempts)
    (hfail : ∀ i, i < k - 1 → (fn i).isSome = true) (hsucc : fn (k - 1) = none) :
    (RetryWithBackoffWithContext (fun _ => none) (fun _ => none) fn rand cfg).success = true ∧
    (RetryWithBackoffWithContext (fun _ => none) (fun _ => none) fn rand cfg).attempts
      = (k : ℤ) ∧
    retryInvocations (fun _ => none) (fun _ => none) fn rand cfg = k := by
  have h := retryAux_firstSuccess (fun _ => none) (fun _ => none) fn rand cfg k
    (fun _ => rfl) (fun _ => rfl) hfail hsucc 0 none 0 0 (by omega) hkn
  exact ⟨h.1, h.2.1, by simpa using h.2.2⟩

/-- Witness for C2: maxAttempts = 3, failure on the first invocation only,
success on the second (k = 2). -/
theorem retry_stops_at_first_success_witness :
    1 ≤ 2 ∧ ((2 : Nat) : ℤ) ≤ (⟨3, 100, 2⟩ : RetryConfig).maxAttempts ∧
    ((RetryWithBackoffWithContext (fun _ => none) (fun _ => none)
        (fun i => if i = 0 then some 7 else none) (fun _ => 0)
        (⟨3, 100, 2⟩ : RetryConfig)).success = true ∧
      (RetryWithBackoffWithContext (fun _ => none) (fun _ => none)
        (fun i => if i = 0 then some 7 else none) (fun _ => 0)
        (⟨3, 100, 2⟩ : RetryConfig)).attempts = ((2 : Nat) : ℤ) ∧
      retryInvocations (fun _ => none) (fun _ => none)
        (fun i => if i = 0 then some 7 else none) (fun _ => 0)
        (⟨3, 100, 2⟩ : RetryConfig) = 2) :=
  ⟨by norm_num, by norm_num,
    retry_stops_at_first_success (fun i => if i = 0 then some 7 else none) (fun _ => 0)
      ⟨3, 100, 2⟩ 2 (by norm_num) (by norm_num)
      (by
        intro i hi
        have h0 : i = 0 := by omega
        rw [h0]
        rfl)
      rfl⟩

/-- C4: cancellation behaviour of the executor.  First part: if the context
is observed cancelled at the top of iteration a (after a completed, failing,
uninterrupted iterations), the executor returns immediately with
succeeded = false, lastError = the cancellation reason and attemptsUsed = a,
the number of attempts already made (= invocations performed).  Second part:
if cancellation wins the select during the wait after attempt a, the executor
returns succeeded = false with the cancellation reason and attemptsUsed
= a + 1, the number of attempts actually made, which is strictly below
maxAttempts. -/
theorem retry_cancellation_outcomes :
    (∀ (Err : Type) (ctxErr waitCancel fn : Nat → Option Err) (rand : Nat → ℚ)
        (cfg : RetryConfig) (a : Nat) (e : Err),
      (∀ i, i < a → ctxErr i = none) → ctxErr a = some e →
      (∀ i, i < a → (fn i).isSome = true) → (∀ i, i < a → waitCancel i = none) →
      (a : ℤ) < cfg.maxAttempts →
      (RetryWithBackoffWithContext ctxErr waitCancel fn rand cfg).success = false ∧
      (RetryWithBackoffWithContext ctxErr waitCancel fn rand cfg).attempts = (a : ℤ) ∧
      (RetryWithBackoffWithContext ctxErr waitCancel fn rand cfg).lastError = some e ∧
      retryInvocations ctxErr waitCancel fn rand cfg = a) ∧
    (∀ (Err : Type) (ctxErr waitCancel fn : Nat → Option Err) (rand : Nat → ℚ)
        (cfg : RetryConfig) (a : Nat) (ce : Err),
      (∀ i, i ≤ a → ctxErr i = none) → (∀ i, i ≤ a → (fn i).isSome = true) →
      (∀ i, i < a → waitCancel i = none) → waitCancel a = some ce →
      (a : ℤ) < cfg.maxAttempts - 1 →
      (RetryWithBackoffWithContext ctxErr waitCancel fn rand cfg).success = false ∧
      (RetryWithBackoffWithContext ctxErr waitCancel fn rand cfg).attempts = (a : ℤ) + 1 ∧
      (RetryWithBackoffWithContext ctxErr waitCancel fn rand cfg).lastError = some ce ∧
      retryInvocations ctxErr waitCancel fn rand cfg = a + 1 ∧
      (a : ℤ) + 1 < cfg.maxAttempts) := by
  constructor
  · intro Err ctxErr waitCancel fn rand cfg a e hctx hca hfn hwait ha
    have h := retryAux_preCancelled ctxErr waitCancel fn rand cfg a e hctx hca hfn hwait
      0 none 0 0 (Nat.zero_le a) ha
    exact ⟨h.1, h.2.1, h.2.2.1, by simpa using h.2.2.2⟩
  · intro Err ctxErr waitCancel fn rand cfg a ce hctx hfn hwait hwa ha
    have h := retryAux_waitCancelled ctxErr waitCancel fn rand cfg a ce hctx hfn hwait hwa
      0 none 0 0 (Nat.zero_le a) ha
    exact ⟨h.1, h.2.1, h.2.2.1, by simpa using h.2.2.2, by omega⟩

/-- Witness for C4.  First scenario: cancellation already observed at the top
of iteration 1 after one failed attempt; second scenario: cancellation wins
the wait after attempt 0 under maxAttempts = 3. -/
theorem retry_cancellation_outcomes_witness :
    ((RetryWithBackoffWithContext (fun i => if i = 0 then none else some 5)
        (fun _ => none) (fun _ => some 7) (fun _ => 0)
        (⟨3, 100, 2⟩ : RetryConfig)).success = false ∧
      (RetryWithBackoffWithContext (fun i => if i = 0 then none else some 5)
        (fun _ => none) (fun _ => some 7) (fun _ => 0)
        (⟨3, 100, 2⟩ : RetryConfig)).attempts = ((1 : Nat) : ℤ) ∧
      (RetryWithBackoffWithContext (fun i => if i = 0 then none else some 5)
        (fun _ => none) (fun _ => some 7) (fun _ => 0)
        (⟨3, 100, 2⟩ : RetryConfig)).lastError = some 5 ∧
      retryInvocations (fun i => if i = 0 then none else some 5)
        (fun _ => none) (fun _ => some 7) (fun _ => 0)
        (⟨3, 100, 2⟩ : RetryConfig) = 1) ∧
    ((RetryWithBackoffWithContext (fun _ => none) (fun _ => some 9)
        (fun _ => some 7) (fun _ => 0) (⟨3, 100, 2⟩ : RetryConfig)).success = false ∧
      (RetryWithBackoffWithContext (fun _ => none) (fun _ => some 9)
        (fun _ => some 7) (fun _ => 0) (⟨3, 100, 2⟩ : RetryConfig)).attempts
        = ((0 : Nat) : ℤ) + 1 ∧
      (RetryWithBackoffWithContext (fun _ => none) (fun _ => some 9)
        (fun _ => some 7) (fun _ => 0) (⟨3, 100, 2⟩ : RetryConfig)).lastError = some 9 ∧
      retryInvocations (fun _ => none) (fun _ => some 9)
        (fun _ => some 7) (fun _ => 0) (⟨3, 100, 2⟩ : RetryConfig) = 0 + 1 ∧
      ((0 : Nat) : ℤ) + 1 < (⟨3, 100, 2⟩ : RetryConfig).maxAttempts) :=
  ⟨retry_cancellation_outcomes.1 ℕ (fun i => if i = 0 then none else some 5)
      (fun _ => none) (fun _ => some 7) (fun _ => 0) ⟨3, 100, 2⟩ 1 5
      (by
        intro i hi
        have h0 : i = 0 := by omega
        rw [h0]
        rfl)
      rfl (fun i _ => rfl) (fun i _ => rfl) (by norm_num),
    retry_cancellation_outcomes.2 ℕ (fun _ => none) (fun _ => some 9)
      (fun _ => some 7) (fun _ => 0) ⟨3, 100, 2⟩ 0 9
      (fun i _ => rfl) (fun i _ => rfl)
      (by
        intro i hi
        exfalso
        omega)
      rfl (by norm_num)⟩

/-- C5 (amended): for any policy with maxAttempts ≥ 1, any operation and any
context, the outcome satisfies 0 ≤ attemptsUsed ≤ maxAttempts, lastError is
present iff succeeded is false, and attemptsUsed = 0 occurs only when the
context is already cancelled before the first attempt.  (The range claimed by
the original sentence, 1..maxAttempts, does not hold: see the
counterexample.) -/
theorem retry_outcome_invariant {Err : Type} (ctxErr waitCancel fn : Nat → Option Err)
    (rand : Nat → ℚ) (cfg : RetryConfig) (hn : 1 ≤ cfg.maxAttempts) :
    0 ≤ (RetryWithBackoffWithContext ctxErr waitCancel fn rand cfg).attempts ∧
    (RetryWithBackoffWithContext ctxErr waitCancel fn rand cfg).attempts
      ≤ cfg.maxAttempts ∧
    ((RetryWithBackoffWithContext ctxErr waitCancel fn rand cfg).lastError.isSome = true ↔
      (RetryWithBackoffWithContext ctxErr waitCancel fn rand cfg).success = false) ∧
    ((RetryWithBackoffWithContext ctxErr waitCancel fn rand cfg).attempts = 0 →
      (ctxErr 0).isSome = true) := by
  have h := retryAux_invariant ctxErr waitCancel fn rand cfg hn 0 none 0 0
    (Or.inl rfl) (by omega)
  have h0 : ((0 : Nat) : ℤ) = 0 := rfl
  exact ⟨by rw [← h0]; exact h.1, h.2.1, h.2.2.1, h.2.2.2⟩

/-- Witness for C5 (amended) at a concrete never-cancelled two-attempt run. -/
theorem retry_outcome_invariant_witness :
    1 ≤ (⟨2, 50, 1⟩ : RetryConfig).maxAttempts ∧
    (0 ≤ (RetryWithBackoffWithContext (fun _ => (none : Option ℕ)) (fun _ => none)
        (fun _ => none) (fun _ => 0) (⟨2, 50, 1⟩ : RetryConfig)).attempts ∧
      (RetryWithBackoffWithContext (fun _ => (none : Option ℕ)) (fun _ => none)
        (fun _ => none) (fun _ => 0) (⟨2, 50, 1⟩ : RetryConfig)).attempts
        ≤ (⟨2, 50, 1⟩ : RetryConfig).maxAttempts ∧
      ((RetryWithBackoffWithContext (fun _ => (none : Option ℕ)) (fun _ => none)
          (fun _ => none) (fun _ => 0) (⟨2, 50, 1⟩ : RetryConfig)).lastError.isSome = true ↔
        (RetryWithBackoffWithContext (fun _ => (none : Option ℕ)) (fun _ => none)
          (fun _ => none) (fun _ => 0) (⟨2, 50, 1⟩ : RetryConfig)).success = false) ∧
      ((RetryWithBackoffWithContext (fun _ => (none : Option ℕ)) (fun _ => none)
          (fun _ => none) (fun _ => 0) (⟨2, 50, 1⟩ : RetryConfig)).attempts = 0 →
        ((fun (_ : Nat) => (none : Option ℕ)) 0).isSome = true)) :=
  ⟨by norm_num,
    retry_outcome_invariant (fun _ => none) (fun _ => none) (fun _ => none) (fun _ => 0)
      ⟨2, 50, 1⟩ (by norm_num)⟩

/-- Counterexample to C5 as stated: with maxAttempts = 1 and a context that
is already cancelled before the first attempt, the executor returns
attemptsUsed = 0, outside the claimed range 1..maxAttempts. -/
theorem retry_outcome_invariant_counterexample :
    1 ≤ (⟨1, 100, 2⟩ : RetryConfig).maxAttempts ∧
    ¬ (1 ≤ (RetryWithBackoffWithContext (fun _ => some (3 : ℕ)) (fun _ => none)
        (fun _ => none) (fun _ => 0) (⟨1, 100, 2⟩ : RetryConfig)).attempts) := by
  have h := retryAux_preCancelled (fun _ => some (3 : ℕ)) (fun _ => none)
    (fun _ => none) (fun _ => 0) ⟨1, 100, 2⟩ 0 3
    (by intro i hi; exfalso; omega) rfl
    (by intro i hi; exfalso; omega) (by intro i hi; exfalso; omega)
    0 none 0 0 (le_refl 0) (by norm_num)
  have h2 : (RetryWithBackoffWithContext (fun _ => some (3 : ℕ)) (fun _ => none)
      (fun _ => none) (fun _ => 0) (⟨1, 100, 2⟩ : RetryConfig)).attempts = ((0 : Nat) : ℤ) :=
    h.2.1
  constructor
  · norm_num
  · intro hcontra
    rw [h2] at hcontra
    omega

/-! ## String helpers (packages utils and config)

Strings are handled character-wise; all inputs the development touches are
ASCII, where this agrees with the byte-wise Go semantics.  The Go string
primitives are implemented over the character list of the string so that
concrete instances reduce inside the kernel.
-/

/-- Go s[:n] (take the first n characters). -/
def strTake (s : String) (n : Nat) : String := String.mk (s.data.take n)

/-- Go s[n:] (drop the first n characters). -/
def strDrop (s : String) (n : Nat) : String := String.mk (s.data.drop n)

/-- Drop the last n characters. -/
def strDropRight (s : String) (n : Nat) : String := strTake s (s.length - n)

/-- Model of strings.ToUpper (ASCII). -/
def strUpper (s : String) : String := String.mk (s.data.map Char.toUpper)

/-- Model of strings.ToLower (ASCII). -/
def strLower (s : String) : String := String.mk (s.data.map Char.toLower)

/-- Model of strings.HasSuffix. -/
def goHasSuffix (s suf : String) : Bool :=
  decide (suf.length ≤ s.length) && (strDrop s (s.length - suf.length) == suf)

/-- Model of strings.HasPrefix. -/
def goStartsWith (s start : String) : Bool :=
  decide (start.length ≤ s.length) && (strTake s start.length == start)

/-- Model of strings.Contains: sub occurs as a contiguous substring of s. -/
def strContains (s sub : String) : Bool :=
  (List.range (s.length + 1)).any (fun i => strTake (strDrop s i) sub.length == sub)

/-- Model of utils.containsIgnoreCase: lowercase both sides, then
strings.Contains. -/
def containsIgnoreCase (s sub : String) : Bool :=
  if s.length < sub.length then false
  else strContains (strLower s) (strLower sub)

/-- Model of utils.contains: length guard, then exact equality, leading or
trailing match, or case-insensitive containment. -/
def goContains (s sub : String) : Bool :=
  decide (sub.length ≤ s.length) && (s == sub ||
    (decide (sub.length < s.length) &&
      (strTake s sub.length == sub ||
       strDrop s (s.length - sub.length) == sub ||
       containsIgnoreCase s sub)))

/-- The network-related error patterns of utils.isNetworkError. -/
def networkErrorPatterns : List String :=
  ["connection refused", "connection reset", "network unreachable",
   "no route to host", "host unreachable", "connection timed out",
   "read timeout", "write timeout"]

/-- Model of utils.isNetworkError: nil errors are not network errors;
otherwise some network pattern occurs in the error text. -/
def isNetworkError (err : Option String) : Bool :=
  match err with
  | none => false
  | some msg => networkErrorPatterns.any (fun p => goContains msg p)

/-- Model of strings.TrimSuffix. -/
def trimSuffix (s suffix : String) : String :=
  if goHasSuffix s suffix then strDropRight s suffix.length else s

/-! ## Configuration and content-type validation (package config)

RustFSConfig keeps only the fields the decorator reads; timeout is in
nanoseconds.
-/

structure RustFSConfig where
  bucketName : String
  maxFileSize : ℤ
  allowedTypes : List String
  timeout : ℤ

/-- Model of config.matchContentType: exact match, else a pattern ending in
slash-star matches any content type starting with the trimmed pattern
followed by a slash. -/
def matchContentType (pattern contentType : String) : Bool :=
  if pattern == contentType then true
  else if goHasSuffix pattern "/*" then
    goStartsWith contentType (trimSuffix pattern "/*" ++ "/")
  else false

/-- Model of RustFSConfig.IsAllowedType: some allowed pattern matches. -/
def IsAllowedType (cfg : RustFSConfig) (contentType : String) : Bool :=
  cfg.allowedTypes.any (fun allowedType => matchContentType allowedType contentType)

/-! ## Filename validation (package utils) -/

/-- The characters rejected by utils.IsValidFilename. -/
def invalidFilenameChars : List String :=
  ["/", "\\", ":", "*", "?", "\"", "<", ">", "|"]

/-- The reserved device names rejected by utils.IsValidFilename. -/
def reservedNames : List String :=
  ["CON", "PRN", "AUX", "NUL",
   "COM1", "COM2", "COM3", "COM4", "COM5", "COM6", "COM7", "COM8", "COM9",
   "LPT1", "LPT2", "LPT3", "LPT4", "LPT5", "LPT6", "LPT7", "LPT8", "LPT9"]

/-- Scan for filepath.Ext over the reversed character list: walking from the
end of the path, stop at the first slash (no extension) or the first dot
(extension from that dot on).  acc holds, in forward order, the characters
already passed. -/
def filepathExtAux : List Char → List Char → List Char
  | _, [] => []
  | acc, c :: rest =>
    if c = '/' then []
    else if c = '.' then '.' :: acc
    else filepathExtAux (c :: acc) rest

/-- Model of path/filepath.Ext: the suffix beginning at the final dot in the
final slash-separated element of the path, empty if there is no dot. -/
def filepathExt (path : String) : String :=
  String.mk (filepathExtAux [] path.data.reverse)

/-- Model of utils.IsValidFilename: nonempty, free of the invalid characters,
and the uppercased base name (extension trimmed) is not a reserved device
name. -/
def IsValidFilename (filename : String) : Bool :=
  if filename == "" then false
  else if invalidFilenameChars.any (fun c => strContains filename c) then false
  else
    let baseName := strUpper (trimSuffix filename (filepathExt filename))
    ! reservedNames.any (fun r => baseName == r)

/-! ## Audit events (package audit)

AuditEvent mirrors the go-auditlogger event as filled in by the
RustFSAuditLogger methods; of the metadata map only the error_code entry
written by LogStorageError is modelled (as errorCode), since it is the only
entry a claim inspects.  Timestamps, durations and the remaining metadata
entries are telemetry no claim touches and are omitted.
-/

structure AuditEvent where
  eventType : String
  userID : String
  resource : String
  resourceID : String
  success : Bool
  reason : String
  errorCode : Option String

structure FileOperationMetadata where
  filename : String := ""
  fileSize : ℤ := 0
  contentType : String := ""
  filePath : String := ""
  bucketName : String := ""
  etag : String := ""

structure StorageErrorMetadata where
  operation : String
  errorCode : String
  errorMessage : String
  retryCount : ℤ

structure PerformanceEventMetadata where
  operation : String
  fileSize : ℤ
  throughput : ℚ
  threshold : ℚ

/-- Model of RustFSAuditLogger.getReason. -/
def getReason (success : Bool) (err : Option String) : String :=
  if success then "Operation completed successfully"
  else
    match err with
    | some e => e
    | none => "Operation failed"

/-- Model of RustFSAuditLogger.LogFileUpload: kind file_uploaded on success,
storage_error on failure; the resource id is the file path of the metadata. -/
def LogFileUpload (userID : String) (md : FileOperationMetadata)
    (err : Option String) : AuditEvent :=
  { eventType := if err.isNone then "file_uploaded" else "storage_error"
    userID := userID
    resource := "file"
    resourceID := md.filePath
    success := err.isNone
    reason := getReason err.isNone err
    errorCode := none }

/-- Model of RustFSAuditLogger.LogFileAccess: kind file_accessed on success,
storage_access_denied on failure. -/
def LogFileAccess (userID filePath : String) (md : FileOperationMetadata)
    (err : Option String) : AuditEvent :=
  { eventType := if err.isNone then "file_accessed" else "storage_access_denied"
    userID := userID
    resource := "file"
    resourceID := filePath
    success := err.isNone
    reason := getReason err.isNone err
    errorCode := none }

/-- Model of RustFSAuditLogger.LogStorageError: always a failure event of
kind storage_error whose metadata carries the error code. -/
def LogStorageError (userID operation : String) (md : StorageErrorMetadata) : AuditEvent :=
  { eventType := "storage_error"
    userID := userID
    resource := "storage"
    resourceID := ""
    success := false
    reason := md.errorMessage
    errorCode := some md.errorCode }

/-- Model of RustFSAuditLogger.LogPerformanceEvent: a success event under the
given kind against the storage resource. -/
def LogPerformanceEvent (userID : String) (eventType : String)
    (md : PerformanceEventMetadata) : AuditEvent :=
  { eventType := eventType
    userID := userID
    resource := "storage"
    resourceID := ""
    success := true
    reason := ""
    errorCode := none }

/-! ## Auditable client decorator (package client)

Go errors surfaced by the backend are modelled by their message strings.
AppError keeps the HTTP status and the formatted message of
client.wrapError; the wrapped cause is not inspected by any claim and is
dropped (the source also passes an incoming AppError through unchanged,
which never applies here because causes are raw errors).  Wall-clock
durations measured around the backend call are explicit parameters.
-/

structure UploadRequest where
  filename : String
  contentType : String
  fileSize : ℤ
  bucketPath : String

structure UploadResponse where
  path : String
  url : String
  size : ℤ
  etag : String

structure FileInfo where
  path : String
  size : ℤ
  contentType : String
  etag : String

structure AppError where
  status : ℤ
  message : String

/-- Model of client.wrapError for a non-AppError cause. -/
def wrapError (code : String) : AppError :=
  ⟨500, "RustFS operation failed: " ++ code⟩

/-- The three rejection reasons of client.validateUploadRequest, carrying
the data interpolated into the corresponding error messages. -/
inductive ValidationFailure where
  | sizeExceeded (size maxSize : ℤ)
  | typeNotAllowed (contentType : String)
  | invalidFilename (filename : String)
deriving DecidableEq

/-- The error text produced for each rejection. -/
def validationMessage : ValidationFailure → String
  | .sizeExceeded size maxSize =>
      "file size " ++ toString size ++ " exceeds maximum allowed size " ++ toString maxSize
  | .typeNotAllowed ct => "content type " ++ ct ++ " is not allowed"
  | .invalidFilename f => "filename " ++ f ++ " is not valid"

/-- Model of client.validateUploadRequest: size check, then content type,
then filename; the first failing check decides the error. -/
def validateUploadRequest (cfg : RustFSConfig) (req : UploadRequest) :
    Option ValidationFailure :=
  if req.fileSize > cfg.maxFileSize then
    some (.sizeExceeded req.fileSize cfg.maxFileSize)
  else if ! IsAllowedType cfg req.contentType then
    some (.typeNotAllowed req.contentType)
  else if ! IsValidFilename req.filename then
    some (.invalidFilename req.filename)
  else none

/-- A value stored under the user_id key of the ambient context: a string,
or something of another type. -/
inductive CtxValue where
  | str (s : String)
  | nonString

/-- Model of client.extractUserID: the context value when it is a string,
the sentinel system identity when it is absent or not a string. -/
def extractUserID (v : Option CtxValue) : String :=
  match v with
  | some (.str id) => id
  | some .nonString => "system"
  | none => "system"

/-- Model of client.calculateThroughput: bytes per second in MB/s, zero when
the duration (nanoseconds) is zero. -/
def calculateThroughput (bytes : ℤ) (duration : ℤ) : ℚ :=
  if duration = 0 then 0
  else (bytes : ℚ) / ((duration : ℚ) / 1000000000) / 1024 / 1024

/-- Model of client.logUploadError: a storage-error audit event for the
upload operation, error code UPLOAD_ERROR, retry count 0. -/
def logUploadError (userID : String) (md : FileOperationMetadata)
    (errMsg : String) : AuditEvent :=
  LogStorageError userID "upload"
    { operation := "upload"
      errorCode := "UPLOAD_ERROR"
      errorMessage := errMsg
      retryCount := 0 }

/-- The pre-upload audit metadata built by UploadFileWithAudit. -/
def preUploadMetadata (cfg : RustFSConfig) (req : UploadRequest) :
    FileOperationMetadata :=
  { filename := req.filename
    fileSize := req.fileSize
    contentType := req.contentType
    filePath := req.bucketPath
    bucketName := cfg.bucketName }

/-- Result of one decorated upload call: the value returned to the caller,
the audit events emitted in order, and how often the backend upload ran. -/
structure UploadAuditOutcome where
  result : Except AppError UploadResponse
  events : List AuditEvent
  backendCalls : Nat

/-- Model of client.UploadFileWithAudit.  A validation failure emits one
storage-error event and returns a VALIDATION_ERROR-wrapped error without
touching the backend; a backend failure emits one storage-error event and
returns an UPLOAD_FAILED-wrapped error; success emits a file_uploaded event
(with the etag of the response) plus, when the measured duration exceeds the
configured timeout, an upload_slow performance event.  The threshold field
is the timeout in milliseconds. -/
def UploadFileWithAudit (cfg : RustFSConfig)
    (backend : UploadRequest → Except String UploadResponse)
    (userID : String) (req : UploadRequest) (duration : ℤ) : UploadAuditOutcome :=
  let preMd := preUploadMetadata cfg req
  match validateUploadRequest cfg req with
  | some vErr =>
    { result := .error (wrapError "VALIDATION_ERROR")
      events := [logUploadError userID preMd (validationMessage vErr)]
      backendCalls := 0 }
  | none =>
    match backend req with
    | .error e =>
      { result := .error (wrapError "UPLOAD_FAILED")
        events := [logUploadError userID preMd e]
        backendCalls := 1 }
    | .ok resp =>
      let uploadEvent := LogFileUpload userID { preMd with etag := resp.etag } none
      let perfEvents :=
        if duration > cfg.timeout then
          [LogPerformanceEvent userID "upload_slow"
            { operation := "upload"
              fileSize := req.fileSize
              throughput := calculateThroughput req.fileSize duration
              threshold := ((cfg.timeout / 1000000 : ℤ) : ℚ) }]
        else []
      { result := .ok resp
        events := uploadEvent :: perfEvents
        backendCalls := 1 }

/-- Result of one decorated info lookup. -/
structure GetInfoOutcome where
  result : Except AppError FileInfo
  events : List AuditEvent

/-- Model of client.GetFileInfo on the auditable client: the actor is
resolved from the ambient context via extractUserID, the backend lookup is
audited as file access (denied on failure), and a slow lookup (beyond a
quarter of the timeout) additionally emits a performance event. -/
def GetFileInfoWithAudit (cfg : RustFSConfig)
    (backend : String → Except String FileInfo)
    (ctxUserID : Option CtxValue) (path : String) (duration : ℤ) : GetInfoOutcome :=
  let userID := extractUserID ctxUserID
  let preMd : FileOperationMetadata :=
    { filePath := path, bucketName := cfg.bucketName }
  match backend path with
  | .error e =>
    { result := .error (wrapError "GET_INFO_FAILED")
      events := [LogFileAccess userID path preMd (some e)] }
  | .ok info =>
    let perfEvents :=
      if duration > cfg.timeout / 4 then
        [LogPerformanceEvent userID "upload_slow"
          { operation := "get_info"
            fileSize := 0
            throughput := 0
            threshold := ((cfg.timeout / 4 / 1000000 : ℤ) : ℚ) }]
      else []
    { result := .ok info
      events := LogFileAccess userID path preMd none :: perfEvents }

/-- Model of client.HealthCheck.  checkHealth is the verdict of the backend
health probe when the backend exposes one (none = healthy); getInfo is the
backend info lookup; dateStr is the formatted current date used in the
deterministic probe object name.  When no backend probe exists, the fallback
looks up health-check-dateStr and returns healthy whatever the outcome. -/
def HealthCheck (checkHealth : Option (Option String))
    (getInfo : String → Except String FileInfo) (dateStr : String) : Option String :=
  match checkHealth with
  | some verdict => verdict
  | none =>
    match getInfo ("health-check-" ++ dateStr) with
    | .error _ => none
    | .ok _ => none

/-! ### Claims C6 to C10 -/

/-- C6 (amended): an upload request whose declared size exceeds maxFileSize
never reaches the backend (zero backend invocations), emits exactly one
audit failure event — a storage-error event whose error code is
UPLOAD_ERROR — and returns a VALIDATION_ERROR-classified error to the
caller.  (The original sentence tags the event with a validation error
code; the code tags it UPLOAD_ERROR: see the counterexample.) -/
theorem upload_oversize_short_circuits (cfg : RustFSConfig)
    (backend : UploadRequest → Except String UploadResponse) (userID : String)
    (req : UploadRequest) (duration : ℤ) (hsize : req.fileSize > cfg.maxFileSize) :
    (UploadFileWithAudit cfg backend userID req duration).backendCalls = 0 ∧
    (UploadFileWithAudit cfg backend userID req duration).events
      = [logUploadError userID (preUploadMetadata cfg req)
          (validationMessage (.sizeExceeded req.fileSize cfg.maxFileSize))] ∧
    ((UploadFileWithAudit cfg backend userID req duration).events.map AuditEvent.errorCode)
      = [some "UPLOAD_ERROR"] ∧
    ((UploadFileWithAudit cfg backend userID req duration).events.map AuditEvent.success)
      = [false] ∧
    (UploadFileWithAudit cfg backend userID req duration).result
      = .error (wrapError "VALIDATION_ERROR") := by
  have hv : validateUploadRequest cfg req
      = some (.sizeExceeded req.fileSize cfg.maxFileSize) := by
    unfold validateUploadRequest
    rw [if_pos hsize]
  unfold UploadFileWithAudit
  rw [hv]
  exact ⟨rfl, rfl, rfl, rfl, rfl⟩

/-- Witness for C6 (amended): a 200-byte request against a 100-byte limit. -/
theorem upload_oversize_short_circuits_witness :
    ((⟨"a.png", "image/png", 200, "snapshots/a.png"⟩ : UploadRequest).fileSize
      > (⟨"bucket", 100, ["image/*"], 1000000000⟩ : RustFSConfig).maxFileSize) ∧
    ((UploadFileWithAudit ⟨"bucket", 100, ["image/*"], 1000000000⟩
        (fun _ => Except.error "unreachable") "alice"
        ⟨"a.png", "image/png", 200, "snapshots/a.png"⟩ 0).backendCalls = 0 ∧
      (UploadFileWithAudit ⟨"bucket", 100, ["image/*"], 1000000000⟩
        (fun _ => Except.error "unreachable") "alice"
        ⟨"a.png", "image/png", 200, "snapshots/a.png"⟩ 0).events
        = [logUploadError "alice"
            (preUploadMetadata ⟨"bucket", 100, ["image/*"], 1000000000⟩
              ⟨"a.png", "image/png", 200, "snapshots/a.png"⟩)
            (validationMessage (.sizeExceeded 200 100))] ∧
      ((UploadFileWithAudit ⟨"bucket", 100, ["image/*"], 1000000000⟩
        (fun _ => Except.error "unreachable") "alice"
        ⟨"a.png", "image/png", 200, "snapshots/a.png"⟩ 0).events.map AuditEvent.errorCode)
        = [some "UPLOAD_ERROR"] ∧
      ((UploadFileWithAudit ⟨"bucket", 100, ["image/*"], 1000000000⟩
        (fun _ => Except.error "unreachable") "alice"
        ⟨"a.png", "image/png", 200, "snapshots/a.png"⟩ 0).events.map AuditEvent.success)
        = [false] ∧
      (UploadFileWithAudit ⟨"bucket", 100, ["image/*"], 1000000000⟩
        (fun _ => Except.error "unreachable") "alice"
        ⟨"a.png", "image/png", 200, "snapshots/a.png"⟩ 0).result
        = .error (wrapError "VALIDATION_ERROR")) :=
  ⟨by decide,
    upload_oversize_short_circuits ⟨"bucket", 100, ["image/*"], 1000000000⟩
      (fun _ => Except.error "unreachable") "alice"
      ⟨"a.png", "image/png", 200, "snapshots/a.png"⟩ 0 (by decide)⟩

/-- Counterexample to C6 as stated: on an oversized upload the single audit
failure event carries error code UPLOAD_ERROR, not the validation error code
VALIDATION_ERROR that classifies the returned error. -/
theorem upload_oversize_event_code_counterexample :
    ((UploadFileWithAudit ⟨"bucket", 100, ["image/*"], 1000000000⟩
        (fun _ => Except.error "unreachable") "alice"
        ⟨"a.png", "image/png", 200, "snapshots/a.png"⟩ 0).events.map AuditEvent.errorCode)
      = [some "UPLOAD_ERROR"] ∧
    (some "UPLOAD_ERROR" : Option String) ≠ some "VALIDATION_ERROR" :=
  ⟨rfl, by decide⟩

/-- Acceptance behaviour of a single content-type pattern. -/
theorem matchContentType_eq_true_iff (pattern contentType : String) :
    matchContentType pattern contentType = true ↔
      (pattern = contentType ∨
        (goHasSuffix pattern "/*" = true ∧
          goStartsWith contentType (strDropRight pattern 2 ++ "/") = true)) := by
  unfold matchContentType
  by_cases h1 : (pattern == contentType) = true
  · rw [if_pos h1]
    have hEq : pattern = contentType := eq_of_beq h1
    simp [hEq]
  · rw [if_neg h1]
    have hne : pattern ≠ contentType := by
      intro hEq
      exact h1 (by rw [hEq]; exact beq_self_eq_true contentType)
    by_cases h2 : goHasSuffix pattern "/*" = true
    · rw [if_pos h2]
      have htrim : trimSuffix pattern "/*" = strDropRight pattern 2 := by
        unfold trimSuffix
        rw [if_pos h2]
        rfl
      rw [htrim]
      constructor
      · intro hs
        exact Or.inr ⟨h2, hs⟩
      · rintro (hEq | ⟨h2p, hs⟩)
        · exact absurd hEq hne
        · exact hs
    · rw [if_neg h2]
      constructor
      · intro hfalse
        exact absurd hfalse (by simp)
      · rintro (hEq | ⟨h2p, hs⟩)
        · exact absurd hEq hne
        · exact absurd h2p h2

/-- The acceptance rule as the specification states it: some allowed pattern
matches the content type, either by exact string equality or by a wildcard
pattern ending in slash-star whose type part, followed by a slash, starts
the content type. -/
def specAllowsContentType (allowedTypes : List String) (contentType : String) : Prop :=
  ∃ p ∈ allowedTypes, p = contentType ∨
    (goHasSuffix p "/*" = true ∧
      goStartsWith contentType (strDropRight p 2 ++ "/") = true)

/-- C7: content-type validation accepts a content type exactly when some
allowed pattern matches it (exact equality or wildcard), and with
allowedTypes = ["image/*"] the type image/png is accepted while
application/pdf is rejected. -/
theorem content_type_acceptance :
    (∀ (cfg : RustFSConfig) (contentType : String),
      IsAllowedType cfg contentType = true ↔
        specAllowsContentType cfg.allowedTypes contentType) ∧
    IsAllowedType ⟨"bucket", 100, ["image/*"], 1000000000⟩ "image/png" = true ∧
    IsAllowedType ⟨"bucket", 100, ["image/*"], 1000000000⟩ "application/pdf" = false := by
  refine ⟨?_, by decide, by decide⟩
  intro cfg contentType
  unfold IsAllowedType specAllowsContentType
  rw [List.any_eq_true]
  constructor
  · rintro ⟨p, hp, hm⟩
    exact ⟨p, hp, (matchContentType_eq_true_iff p contentType).mp hm⟩
  · rintro ⟨p, hp, hm⟩
    exact ⟨p, hp, (matchContentType_eq_true_iff p contentType).mpr hm⟩

/-- Witness for C7 at the two concrete content types of the claim. -/
theorem content_type_acceptance_witness :
    IsAllowedType ⟨"bucket", 100, ["image/*"], 1000000000⟩ "image/png" = true ∧
    IsAllowedType ⟨"bucket", 100, ["image/*"], 1000000000⟩ "application/pdf" = false :=
  ⟨content_type_acceptance.2.1, content_type_acceptance.2.2⟩

/-- C8 (amended): every audit event emitted by the context-resolving info
lookup carries the actor produced by extractUserID; that actor is the
context user_id value when it is a string — including the empty string —
and the sentinel system identity when the value is absent or not a string.
(The original claim that no audit record ever has an empty actor field
fails: see the counterexample.) -/
theorem audit_actor_resolution :
    (∀ (cfg : RustFSConfig) (backend : String → Except String FileInfo)
        (v : Option CtxValue) (path : String) (duration : ℤ),
      ∀ ev ∈ (GetFileInfoWithAudit cfg backend v path duration).events,
        ev.userID = extractUserID v) ∧
    extractUserID none = "system" ∧
    extractUserID (some .nonString) = "system" ∧
    (∀ s, extractUserID (some (.str s)) = s) := by
  refine ⟨?_, rfl, rfl, fun s => rfl⟩
  intro cfg backend v path duration ev hev
  unfold GetFileInfoWithAudit at hev
  cases hb : backend path with
  | error e =>
    rw [hb] at hev
    simp only [List.mem_singleton] at hev
    rw [hev]
    rfl
  | ok info =>
    rw [hb] at hev
    simp only [List.mem_cons] at hev
    rcases hev with hev | hev
    · rw [hev]
      rfl
    · by_cases hd : duration > cfg.timeout / 4
      · rw [if_pos hd] at hev
        simp only [List.mem_singleton] at hev
        rw [hev]
        rfl
      · rw [if_neg hd] at hev
        exact absurd hev (List.not_mem_nil ev)

/-- Witness for C8 (amended): the resolved actor on a present string value
and on an absent value. -/
theorem audit_actor_resolution_witness :
    extractUserID (some (.str "alice")) = "alice" ∧ extractUserID none = "system" :=
  ⟨audit_actor_resolution.2.2.2 "alice", audit_actor_resolution.2.1⟩

/-- Counterexample to C8 as stated: a context whose user_id value is the
empty string yields an audit event whose actor field is empty, not the
system sentinel. -/
theorem audit_actor_empty_counterexample :
    ((GetFileInfoWithAudit ⟨"bucket", 100, ["image/*"], 1000000000⟩
        (fun p => Except.error ("file not found: " ++ p)) (some (.str "")) "p" 0).events.map
      AuditEvent.userID) = [""] ∧ ("" : String) ≠ "system" :=
  ⟨rfl, by decide⟩

/-- C9 (amended): the health probe delegates to the backend probe when the
backend exposes one and returns its verdict unchanged; otherwise the
fallback info lookup on the deterministically-named object reports healthy
whatever the outcome — not-found failures, transport-level failures and
success alike.  (The original sentence says only a transport-level failure
of the probe indicates unhealthy; the fallback never reports unhealthy: see
the counterexample.) -/
theorem healthCheck_behaviour :
    (∀ (verdict : Option String) (getInfo : String → Except String FileInfo)
        (dateStr : String), HealthCheck (some verdict) getInfo dateStr = verdict) ∧
    (∀ (getInfo : String → Except String FileInfo) (dateStr : String),
      HealthCheck none getInfo dateStr = none) := by
  constructor
  · intro verdict getInfo dateStr
    rfl
  · intro getInfo dateStr
    unfold HealthCheck
    cases getInfo ("health-check-" ++ dateStr) with
    | error e => rfl
    | ok info => rfl

/-- Witness for C9 (amended): a delegated unhealthy verdict, and the
fallback on a backend without a probe. -/
theorem healthCheck_behaviour_witness :
    HealthCheck (some (some "backend down")) (fun _ => Except.error "x") "20240101"
      = some "backend down" ∧
    HealthCheck none (fun _ => Except.error "file not found: health-check-20240101")
      "20240101" = none :=
  ⟨healthCheck_behaviour.1 (some "backend down") (fun _ => Except.error "x") "20240101",
    healthCheck_behaviour.2 (fun _ => Except.error "file not found: health-check-20240101")
      "20240101"⟩

/-- Counterexample to C9 as stated: with no backend probe and the fallback
lookup failing with a transport-level (network) error — one the repository
itself classifies as a network error — HealthCheck still reports healthy. -/
theorem healthCheck_transport_counterexample :
    isNetworkError (some "connection refused") = true ∧
    HealthCheck none (fun _ => Except.error "connection refused") "20240101" = none :=
  ⟨by decide, rfl⟩

/-- C10: the upload size check is strict: validateUploadRequest rejects on
size exactly when the declared FileSize strictly exceeds MaxFileSize; a
request whose size equals MaxFileSize, is zero, or is negative passes the
size check (and passes validation entirely when content type and filename
are acceptable, as in the concrete instances). -/
theorem validate_size_strict :
    (∀ (cfg : RustFSConfig) (req : UploadRequest),
      (∃ s m, validateUploadRequest cfg req = some (.sizeExceeded s m)) ↔
        req.fileSize > cfg.maxFileSize) ∧
    validateUploadRequest ⟨"bucket", 100, ["image/*"], 1000000000⟩
      ⟨"a.png", "image/png", 100, "p"⟩ = none ∧
    validateUploadRequest ⟨"bucket", 100, ["image/*"], 1000000000⟩
      ⟨"a.png", "image/png", 0, "p"⟩ = none ∧
    validateUploadRequest ⟨"bucket", 100, ["image/*"], 1000000000⟩
      ⟨"a.png", "image/png", -5, "p"⟩ = none ∧
    validateUploadRequest ⟨"bucket", 100, ["image/*"], 1000000000⟩
      ⟨"a.png", "image/png", 101, "p"⟩ = some (.sizeExceeded 101 100) := by
  refine ⟨?_, by decide, by decide, by decide, by decide⟩
  intro cfg req
  constructor
  · rintro ⟨s, m, hsm⟩
    by_contra hgt
    unfold validateUploadRequest at hsm
    rw [if_neg hgt] at hsm
    split at hsm <;> simp_all
  · intro hgt
    refine ⟨req.fileSize, cfg.maxFileSize, ?_⟩
    unfold validateUploadRequest
    rw [if_pos hgt]

/-- Witness for C10 at a request one byte over the limit. -/
theorem validate_size_strict_witness :
    ((⟨"a.png", "image/png", 101, "p"⟩ : UploadRequest).fileSize
      > (⟨"bucket", 100, ["image/*"], 1000000000⟩ : RustFSConfig).maxFileSize) ∧
    (∃ s m, validateUploadRequest ⟨"bucket", 100, ["image/*"], 1000000000⟩
      ⟨"a.png", "image/png", 101, "p"⟩ = some (.sizeExceeded s m)) :=
  ⟨by decide,
    (validate_size_strict.1 ⟨"bucket", 100, ["image/*"], 1000000000⟩
      ⟨"a.png", "image/png", 101, "p"⟩).mpr (by decide)⟩

end RustFS
